import Mathlib

/-!
# Employee REST resource: handlers of `RestAPI/routes/employees.js`

The five routes of the Express router and the shared id-resolution
middleware `getEmployeer` are embedded as pure functions that thread the
Express response object (`Res`) and the storage state explicitly.

* Part 1 embeds Express' response object and the route handlers.  The handlers
  are written against an abstract Mongoose model (`Model`), whose operations
  are the calls the source makes: `find`, `findById`, `new Employee(..)`,
  `save`, `remove`.  Every awaited call either yields a value or rejects with
  an error carrying a message.
* Part 2 gives one concrete storage, `EmployeeModel`, for the module
  `../models/employee` that the router requires.
* Part 3 states and proves the properties.
-/

namespace RestAPI

/-! ## Part 1: the router, from `RestAPI/routes/employees.js` -/

/-- An Employee document: the four properties of the schema. A property that
is `none` is the JavaScript `undefined`. -/
structure Employee where
  id : Nat
  name : Option String
  contractType : Option String
  employDate : Option Nat
deriving DecidableEq, Repr

/-- The two classes of rejection an awaited storage call can end with. -/
inductive ErrorKind where
  | validation
  | fault
deriving DecidableEq, Repr

/-- A thrown error `err`; the handlers only ever read `err.message`. -/
structure StoreError where
  kind : ErrorKind
  message : String
deriving DecidableEq, Repr

/-- The path parameter `req.params.id`: text that the driver either casts to
an identifier or rejects as malformed. -/
inductive ParamId where
  | oid (n : Nat)
  | malformed (raw : String)
deriving DecidableEq, Repr

/-- The parsed JSON body `req.body`, as a list of fields; a field that is not
listed reads as `undefined`. -/
abbrev Body := List (String × String)

/-- The request `req`, as far as the handlers read it. -/
structure Req where
  id : ParamId
  body : Body
deriving DecidableEq, Repr

/-- What a handler passes to `res.json` or `res.send`. -/
inductive Payload where
  | message (text : String)
  | employee (e : Employee)
  | employees (es : List Employee)
  | undefined
deriving DecidableEq, Repr

/-- One response written to the client. -/
structure Response where
  status : Nat
  body : Payload
deriving DecidableEq, Repr

/-- Express' response object `res`: the status code that the next send will
use (200 until `res.status` is called), the responses sent so far, and the
property `res.employee` that `getEmployeer` attaches. -/
structure Res where
  statusCode : Nat
  sent : List Response
  employee : Option Employee
deriving DecidableEq, Repr

/-- The response object a route starts with. -/
def Res.fresh : Res :=
  { statusCode := 200, sent := [], employee := none }

/-- Express `res.status(code)`. -/
def Res.status (res : Res) (code : Nat) : Res :=
  { res with statusCode := code }

/-- Express `res.json(body)`: one more response is written, with the current
status code. -/
def Res.json (res : Res) (body : Payload) : Res :=
  { res with sent := res.sent ++ [{ status := res.statusCode, body := body }] }

/-- Express `res.send(body)`. -/
def Res.send (res : Res) (body : Payload) : Res :=
  { res with sent := res.sent ++ [{ status := res.statusCode, body := body }] }

/-- The Mongoose model the router requires from `../models/employee`, as the
calls the handlers make on it. `σ` is the state of the collection. An awaited
call that rejects yields `Except.error err` and leaves the state as it was;
`find` and `findById` are reads. -/
structure Model (σ : Type) where
  find : σ → Except StoreError (List Employee)
  findById : σ → ParamId → Except StoreError (Option Employee)
  construct : σ → Option String → Option String → Employee
  save : σ → Employee → Except StoreError (Employee × σ)
  remove : σ → Employee → Except StoreError σ

variable {σ : Type}

/-- Handler of `router.get("/")`. -/
def listHandler (m : Model σ) (db : σ) (res : Res) : Res × σ :=
  match m.find db with
  | .ok employees => (res.json (.employees employees), db)
  | .error err => ((res.status 500).json (.message err.message), db)

/-- The middleware `getEmployeer(req, res, next)`. -/
def getEmployeer (m : Model σ) (db : σ) (req : Req) (res : Res)
    (next : Res → Res × σ) : Res × σ :=
  match m.findById db req.id with
  | .ok none => ((res.status 404).json (.message "Employee not found"), db)
  | .ok (some employee) => next { res with employee := some employee }
  | .error err => ((res.status 500).json (.message err.message), db)

/-- Handler of `router.get("/:id")`, run after `getEmployeer`. -/
def getHandler (db : σ) (res : Res) : Res × σ :=
  match res.employee with
  | some employee => (res.send (.employee employee), db)
  | none => (res.send .undefined, db)

/-- Handler of `router.post("/")`. -/
def postHandler (m : Model σ) (db : σ) (req : Req) (res : Res) : Res × σ :=
  let employee := m.construct db (req.body.lookup "name") (req.body.lookup "contractType")
  match m.save db employee with
  | .ok (newEmployee, db1) => ((res.status 201).json (.employee newEmployee), db1)
  | .error err => ((res.status 400).json (.message err.message), db)

/-- Handler of `router.patch("/:id")`, run after `getEmployeer`. Without
`res.employee` the first assignment throws inside the `try`. -/
def patchHandler (m : Model σ) (db : σ) (req : Req) (res : Res) : Res × σ :=
  match res.employee with
  | none => ((res.status 400).json (.message "Cannot set properties of undefined"), db)
  | some employee =>
    let employee := { employee with
      name := req.body.lookup "name", contractType := req.body.lookup "contractType" }
    match m.save db employee with
    | .ok (updatedEmployee, db1) => (res.json (.employee updatedEmployee), db1)
    | .error err => ((res.status 400).json (.message err.message), db)

/-- Handler of `router.delete("/:id")`, run after `getEmployeer`. Without
`res.employee` the call of `remove` throws inside the `try`. -/
def deleteHandler (m : Model σ) (db : σ) (res : Res) : Res × σ :=
  match res.employee with
  | none => ((res.status 500).json (.message "Cannot read properties of undefined"), db)
  | some employee =>
    match m.remove db employee with
    | .ok db1 => (res.json (.message "Employee deleted succesfully"), db1)
    | .error err => ((res.status 500).json (.message err.message), db)

/-- The five routes registered on the router. -/
inductive Route where
  | list
  | get
  | create
  | update
  | delete
deriving DecidableEq, Repr

/-- The router: each route runs its chain on a fresh response object. -/
def router (m : Model σ) (db : σ) (route : Route) (req : Req) : Res × σ :=
  match route with
  | .list => listHandler m db Res.fresh
  | .get => getEmployeer m db req Res.fresh (fun res => getHandler db res)
  | .create => postHandler m db req Res.fresh
  | .update => getEmployeer m db req Res.fresh (fun res => patchHandler m db req res)
  | .delete => getEmployeer m db req Res.fresh (fun res => deleteHandler m db res)

/-! ## Part 2: the collection behind `../models/employee` -/

/-- Modelled from the spec: the module `../models/employee` (schema and
collection) is not among the sources. Condition of the storage system: `up`
serves reads and writes, `readOnly` serves reads and rejects writes (a
query-execution failure), `down` rejects every call (a connection failure). -/
inductive Health where
  | up
  | readOnly
  | down
deriving DecidableEq, Repr

/-- Modelled from the spec: the state of the Employee collection of the missing
module `../models/employee`. `docs` are the stored records, `issued` is the
identifier generator (every identifier below it has been handed out), `clock`
is the current time and `health` the condition of the storage system. -/
structure Db where
  docs : List Employee
  issued : Nat
  clock : Nat
  health : Health
deriving DecidableEq, Repr

/-- Modelled from the spec: the collection of the missing module
`../models/employee` before any record was created. -/
def Db.empty (clock : Nat) (health : Health) : Db :=
  { docs := [], issued := 0, clock := clock, health := health }

/-- Modelled from the spec: invariant of the data model of the missing module
`../models/employee`, "id is unique across all records and never reused":
every stored identifier was handed out by the generator. -/
def Db.Consistent (db : Db) : Prop :=
  ∀ d ∈ db.docs, d.id < db.issued

instance Db.decidableConsistent (db : Db) : Decidable db.Consistent :=
  inferInstanceAs (Decidable (∀ d ∈ db.docs, d.id < db.issued))

/-- Modelled from the spec: the message of a storage fault of the missing
module `../models/employee`. -/
def faultMessage (h : Health) : String :=
  match h with
  | .up => ""
  | .readOnly => "not primary"
  | .down => "connection refused"

/-- Modelled from the spec: the schema check of the missing module
`../models/employee`, "name and contractType must be present for a record to
be persisted". Yields the validation message, or `none` for a valid record. -/
def validate (e : Employee) : Option String :=
  match e.name, e.contractType with
  | some _, some _ => none
  | none, some _ => some "Employee validation failed: name is required"
  | some _, none => some "Employee validation failed: contractType is required"
  | none, none => some "Employee validation failed: name is required, contractType is required"

/-- Modelled from the spec: `Employee.find()` of the missing module
`../models/employee`, "fetch all records, no filtering/paging". -/
def Employee.find (db : Db) : Except StoreError (List Employee) :=
  match db.health with
  | .down => .error { kind := .fault, message := faultMessage .down }
  | _ => .ok db.docs

/-- Modelled from the spec: `Employee.findById(id)` of the missing module
`../models/employee`, "look up the record by the path identifier"; the lookup
faults on a malformed identifier and when the storage is unavailable. -/
def Employee.findById (db : Db) (id : ParamId) : Except StoreError (Option Employee) :=
  match id with
  | .malformed raw =>
    .error { kind := .fault, message := "Cast to ObjectId failed for value " ++ raw }
  | .oid n =>
    match db.health with
    | .down => .error { kind := .fault, message := faultMessage .down }
    | _ => .ok (db.docs.find? (fun d => d.id == n))

/-- Modelled from the spec: `new Employee(..)` of the missing module
`../models/employee`, "construct new record with server-assigned id and
default employDate". -/
def Employee.construct (db : Db) (name contractType : Option String) : Employee :=
  { id := db.issued, name := name, contractType := contractType, employDate := some db.clock }

/-- Modelled from the spec: the stored records of the missing module
`../models/employee` after `e` is persisted: the record with the identifier of
`e` is overwritten in place, a record with a new identifier is added. -/
def persist (docs : List Employee) (e : Employee) : List Employee :=
  if docs.any (fun d => d.id == e.id) then
    docs.map (fun d => if d.id == e.id then e else d)
  else
    docs ++ [e]

/-- Modelled from the spec: `document.save()` of the missing module
`../models/employee`: the schema is checked first, then the record is
persisted. -/
def Employee.save (db : Db) (e : Employee) : Except StoreError (Employee × Db) :=
  match validate e with
  | some msg => .error { kind := .validation, message := msg }
  | none =>
    match db.health with
    | .up => .ok (e, { db with docs := persist db.docs e, issued := max db.issued (e.id + 1) })
    | h => .error { kind := .fault, message := faultMessage h }

/-- Modelled from the spec: `document.remove()` of the missing module
`../models/employee`, "remove record". -/
def Employee.remove (db : Db) (e : Employee) : Except StoreError Db :=
  match db.health with
  | .up => .ok { db with docs := db.docs.filter (fun d => d.id != e.id) }
  | h => .error { kind := .fault, message := faultMessage h }

/-- Modelled from the spec: the model exported by the missing module
`../models/employee`. -/
def EmployeeModel : Model Db :=
  { find := Employee.find
    findById := Employee.findById
    construct := Employee.construct
    save := Employee.save
    remove := Employee.remove }

/-- The service: the router over the Employee collection. -/
def serve (db : Db) (route : Route) (req : Req) : Res × Db :=
  router EmployeeModel db route req


/-! ### Sample data -/

/-- The employee of the example in the API documentation. -/
def maniek : Employee :=
  { id := 0, name := some "Maniek", contractType := some "UoD", employDate := some 7 }

/-- The record `maniek` after an update to another name and contract type. -/
def zenek : Employee :=
  { id := 0, name := some "Zenek", contractType := some "UoP", employDate := some 7 }

/-- A collection that holds the single record `maniek`. -/
def sampleDb (h : Health) : Db :=
  { docs := [maniek], issued := 1, clock := 9, health := h }

/-- A request on path id `n` with the body of the example of the API
documentation. -/
def reqManiek (n : Nat) : Req :=
  { id := .oid n, body := [("name", "Maniek"), ("contractType", "UoD")] }

/-- A request on path id `n` whose body also carries fields the handlers do
not read. -/
def reqZenek (n : Nat) : Req :=
  { id := .oid n,
    body := [("id", "5"), ("name", "Zenek"), ("employDate", "0"), ("contractType", "UoP")] }

/-- A request with a path id that is not an identifier. -/
def reqMalformed : Req :=
  { id := .malformed "abc", body := [] }

/-! ## Part 3: properties -/

section Router

variable (m : Model σ) (db : σ) (req : Req)

theorem getEmployeer_none (res : Res) (next : Res → Res × σ)
    (h : m.findById db req.id = .ok none) :
    getEmployeer m db req res next
      = ({ res with statusCode := 404,
                    sent := res.sent ++ [⟨404, .message "Employee not found"⟩] }, db) := by
  simp [getEmployeer, h, Res.status, Res.json]

theorem getEmployeer_error (res : Res) (next : Res → Res × σ) (err : StoreError)
    (h : m.findById db req.id = .error err) :
    getEmployeer m db req res next
      = ({ res with statusCode := 500,
                    sent := res.sent ++ [⟨500, .message err.message⟩] }, db) := by
  simp [getEmployeer, h, Res.status, Res.json]

theorem getEmployeer_some (res : Res) (next : Res → Res × σ) (e : Employee)
    (h : m.findById db req.id = .ok (some e)) :
    getEmployeer m db req res next = next { res with employee := some e } := by
  simp [getEmployeer, h]

end Router

section Storage

theorem find?_id_some {docs : List Employee} {n : Nat} {e : Employee}
    (h : docs.find? (fun d => d.id == n) = some e) : e.id = n ∧ e ∈ docs := by
  refine ⟨?_, List.mem_of_find?_eq_some h⟩
  have := List.find?_some h
  simpa using this

theorem find?_id_none {docs : List Employee} {n : Nat}
    (h : ∀ d ∈ docs, d.id ≠ n) : docs.find? (fun d => d.id == n) = none := by
  rw [List.find?_eq_none]
  intro d hd
  simpa using h d hd

theorem findById_some {db : Db} {id : ParamId} {e : Employee}
    (h : Employee.findById db id = .ok (some e)) :
    id = .oid e.id ∧ e ∈ db.docs ∧ db.health ≠ .down := by
  cases id with
  | malformed raw => simp [Employee.findById] at h
  | oid n =>
    cases hh : db.health <;> simp [Employee.findById, hh] at h
    · obtain ⟨h1, h2⟩ := find?_id_some h
      simp [h1, h2]
    · obtain ⟨h1, h2⟩ := find?_id_some h
      simp [h1, h2]

theorem persist_fresh {docs : List Employee} {e : Employee}
    (h : ∀ d ∈ docs, d.id ≠ e.id) : persist docs e = docs ++ [e] := by
  have hany : docs.any (fun d => d.id == e.id) = false := by
    rw [List.any_eq_false]
    intro d hd
    simpa using h d hd
  simp [persist, hany]

theorem map_replace_find? (docs : List Employee) (e : Employee)
    (h : docs.any (fun d => d.id == e.id) = true) :
    (docs.map (fun d => if d.id == e.id then e else d)).find? (fun d => d.id == e.id)
      = some e := by
  induction docs with
  | nil => simp at h
  | cons d ds ih =>
    by_cases hd : d.id = e.id
    · have hb : (d.id == e.id) = true := by simpa using hd
      simp only [List.map_cons, hb, if_true, List.find?_cons, beq_self_eq_true]
    · have hb : (d.id == e.id) = false := by simpa using hd
      have hds : ds.any (fun d => d.id == e.id) = true := by
        simpa [hd] using h
      simp only [List.map_cons, hb, List.find?_cons, Bool.false_eq_true, if_false]
      exact ih hds

theorem persist_find? (docs : List Employee) (e : Employee) :
    (persist docs e).find? (fun d => d.id == e.id) = some e := by
  unfold persist
  split
  · next h => exact map_replace_find? docs e h
  · next h =>
    have hne : ∀ d ∈ docs, d.id ≠ e.id := by
      intro d hd hcon
      exact h (List.any_eq_true.mpr ⟨d, hd, by simpa using hcon⟩)
    simp [List.find?_append, find?_id_none hne]

theorem map_replace_filter_ne (docs : List Employee) (e : Employee) :
    (docs.map (fun d => if d.id == e.id then e else d)).filter (fun d => d.id != e.id)
      = docs.filter (fun d => d.id != e.id) := by
  induction docs with
  | nil => rfl
  | cons d ds ih =>
    by_cases hd : d.id = e.id
    · have hb : (d.id == e.id) = true := by simpa using hd
      have hn : (d.id != e.id) = false := by simp [hd]
      have hn2 : (e.id != e.id) = false := by simp
      simp only [List.map_cons, hb, if_true, List.filter_cons, hn, hn2]
      simpa using ih
    · have hb : (d.id == e.id) = false := by simpa using hd
      have hn : (d.id != e.id) = true := by simp [hd]
      simp only [List.map_cons, hb, List.filter_cons, hn, if_true, Bool.false_eq_true,
        if_false]
      rw [ih]

theorem persist_filter_ne (docs : List Employee) (e : Employee) :
    (persist docs e).filter (fun d => d.id != e.id) = docs.filter (fun d => d.id != e.id) := by
  unfold persist
  split
  · exact map_replace_filter_ne docs e
  · simp [List.filter_append]

theorem persist_ids_lt {docs : List Employee} {e : Employee} {k : Nat}
    (h : ∀ d ∈ docs, d.id < k) (he : e.id < k) : ∀ d ∈ persist docs e, d.id < k := by
  unfold persist
  split
  · intro d hd
    rw [List.mem_map] at hd
    obtain ⟨d0, hd0, rfl⟩ := hd
    split
    · exact he
    · exact h d0 hd0
  · intro d hd
    rw [List.mem_append] at hd
    rcases hd with hd | hd
    · exact h d hd
    · simp at hd
      rw [hd]; exact he

theorem filter_ne_find? (docs : List Employee) (n : Nat) :
    (docs.filter (fun d => d.id != n)).find? (fun d => d.id == n) = none := by
  rw [List.find?_eq_none]
  intro d hd
  have := (List.mem_filter.mp hd).2
  simpa using this

theorem validate_none {e : Employee} (h : validate e = none) :
    e.name.isSome = true ∧ e.contractType.isSome = true := by
  unfold validate at h
  split at h <;> simp_all

theorem save_ok {db db1 : Db} {e e1 : Employee} (h : Employee.save db e = .ok (e1, db1)) :
    validate e = none ∧ db.health = .up ∧ e1 = e
      ∧ db1 = { db with docs := persist db.docs e, issued := max db.issued (e.id + 1) } := by
  unfold Employee.save at h
  cases hv : validate e with
  | some msg => simp [hv] at h
  | none =>
    cases hh : db.health <;> simp [hv, hh] at h
    exact ⟨rfl, rfl, h.1.symm, h.2.symm⟩

theorem remove_ok {db db1 : Db} {e : Employee} (h : Employee.remove db e = .ok db1) :
    db.health = .up ∧ db1 = { db with docs := db.docs.filter (fun d => d.id != e.id) } := by
  unfold Employee.remove at h
  cases hh : db.health <;> simp [hh] at h
  exact ⟨rfl, h.symm⟩

end Storage

/-- C8: the id-resolution step decides exactly one of three outcomes, and the
handlers of get, update and delete run only on a response object that carries
the record found for the path id. -/
theorem getEmployeer_three_outcomes (m : Model σ) (db : σ) (req : Req) (res : Res)
    (next : Res → Res × σ) :
    (m.findById db req.id = .ok none →
        (getEmployeer m db req res next).1.sent
            = res.sent ++ [⟨404, .message "Employee not found"⟩]
        ∧ (getEmployeer m db req res next).2 = db
        ∧ ∀ other : Res → Res × σ,
            getEmployeer m db req res other = getEmployeer m db req res next)
    ∧ (∀ err, m.findById db req.id = .error err →
        (getEmployeer m db req res next).1.sent
            = res.sent ++ [⟨500, .message err.message⟩]
        ∧ (getEmployeer m db req res next).2 = db
        ∧ ∀ other : Res → Res × σ,
            getEmployeer m db req res other = getEmployeer m db req res next)
    ∧ (∀ e, m.findById db req.id = .ok (some e) →
        getEmployeer m db req res next
          = next { statusCode := res.statusCode, sent := res.sent, employee := some e })
    ∧ (m.findById db req.id = .ok none
        ∨ (∃ err, m.findById db req.id = .error err)
        ∨ (∃ e, m.findById db req.id = .ok (some e)))
    ∧ (∀ e, m.findById db req.id = .ok (some e) →
        router m db .get req = getHandler db ⟨200, [], some e⟩
        ∧ router m db .update req = patchHandler m db req ⟨200, [], some e⟩
        ∧ router m db .delete req = deleteHandler m db ⟨200, [], some e⟩)
    ∧ (∀ (store : Db) (e : Employee), EmployeeModel.findById store req.id = .ok (some e) →
        req.id = .oid e.id ∧ e ∈ store.docs) := by
  refine ⟨?_, ?_, ?_, ?_, ?_, ?_⟩
  · intro h
    refine ⟨?_, ?_, ?_⟩
    · rw [getEmployeer_none m db req res next h]
    · rw [getEmployeer_none m db req res next h]
    · intro other
      rw [getEmployeer_none m db req res next h, getEmployeer_none m db req res other h]
  · intro err h
    refine ⟨?_, ?_, ?_⟩
    · rw [getEmployeer_error m db req res next err h]
    · rw [getEmployeer_error m db req res next err h]
    · intro other
      rw [getEmployeer_error m db req res next err h,
        getEmployeer_error m db req res other err h]
  · intro e h
    rw [getEmployeer_some m db req res next e h]
  · cases h : m.findById db req.id with
    | error err => exact Or.inr (Or.inl ⟨err, rfl⟩)
    | ok found =>
      cases found with
      | none => exact Or.inl rfl
      | some e => exact Or.inr (Or.inr ⟨e, rfl⟩)
  · intro e h
    simp only [router]
    refine ⟨?_, ?_, ?_⟩ <;> rw [getEmployeer_some m db req _ _ e h] <;> rfl
  · intro store e h
    have := @findById_some store _ _ h
    exact ⟨this.1, this.2.1⟩

/-- C10: every route sends exactly one response; its status is one of 200,
201, 400, 404, 500; 201 comes only from Create and 404 only from the
id-resolution step, when the lookup found no record. -/
theorem router_exactly_one_response (m : Model σ) (db : σ) (route : Route) (req : Req) :
    ∃ r : Response, (router m db route req).1.sent = [r]
      ∧ (r.status = 200 ∨ r.status = 201 ∨ r.status = 400 ∨ r.status = 404 ∨ r.status = 500)
      ∧ (r.status = 201 → route = .create)
      ∧ (r.status = 404 →
          (route = .get ∨ route = .update ∨ route = .delete)
          ∧ m.findById db req.id = .ok none
          ∧ r.body = .message "Employee not found") := by
  cases route with
  | list =>
    simp only [router, listHandler]
    cases m.find db <;> simp [Res.fresh, Res.status, Res.json]
  | create =>
    simp only [router, postHandler]
    cases m.save db _ <;> simp [Res.fresh, Res.status, Res.json]
  | get =>
    simp only [router]
    cases h : m.findById db req.id with
    | error err =>
      rw [getEmployeer_error m db req _ _ err h]
      simp [Res.fresh]
    | ok found =>
      cases found with
      | none =>
        rw [getEmployeer_none m db req _ _ h]
        simp [Res.fresh]
      | some e =>
        rw [getEmployeer_some m db req _ _ e h]
        simp [Res.fresh, getHandler, Res.send]
  | update =>
    simp only [router]
    cases h : m.findById db req.id with
    | error err =>
      rw [getEmployeer_error m db req _ _ err h]
      simp [Res.fresh]
    | ok found =>
      cases found with
      | none =>
        rw [getEmployeer_none m db req _ _ h]
        simp [Res.fresh]
      | some e =>
        rw [getEmployeer_some m db req _ _ e h]
        simp only [patchHandler, Res.fresh]
        cases m.save db _ <;> simp [Res.status, Res.json]
  | delete =>
    simp only [router]
    cases h : m.findById db req.id with
    | error err =>
      rw [getEmployeer_error m db req _ _ err h]
      simp [Res.fresh]
    | ok found =>
      cases found with
      | none =>
        rw [getEmployeer_none m db req _ _ h]
        simp [Res.fresh]
      | some e =>
        rw [getEmployeer_some m db req _ _ e h]
        simp only [deleteHandler, Res.fresh]
        cases m.remove db e <;> simp [Res.status, Res.json]

/-- C1, as stated, fails: a path id that is not an identifier, and a
well-formed absent id while the storage is unreachable, match no stored record
and are answered with 500 and the error message of the lookup. -/
theorem absent_id_lookup_fault_responds_500 :
    (∀ d ∈ (sampleDb .up).docs, ParamId.oid d.id ≠ reqMalformed.id)
    ∧ (serve (sampleDb .up) .get reqMalformed).1.sent
        = [⟨500, .message "Cast to ObjectId failed for value abc"⟩]
    ∧ (serve (sampleDb .up) .update reqMalformed).1.sent
        = [⟨500, .message "Cast to ObjectId failed for value abc"⟩]
    ∧ (serve (sampleDb .up) .delete reqMalformed).1.sent
        = [⟨500, .message "Cast to ObjectId failed for value abc"⟩]
    ∧ (∀ d ∈ (sampleDb .down).docs, ParamId.oid d.id ≠ (reqManiek 3).id)
    ∧ (serve (sampleDb .down) .get (reqManiek 3)).1.sent
        = [⟨500, .message "connection refused"⟩] := by
  decide

/-- C1, amended: when the lookup completes (well-formed path id, storage
reachable) and no stored record has the id, Get, Update and Delete by id
respond 404 "Employee not found" and leave the collection as it was; when the
lookup faults, which it does for every malformed path id and for every path id
while the storage is unreachable, they respond 500 with the message of the
fault and leave the collection as it was. -/
theorem absent_id_responds_404 (db : Db) (route : Route) (req : Req) (n : Nat)
    (hroute : route = .get ∨ route = .update ∨ route = .delete)
    (hid : req.id = .oid n) (hup : db.health ≠ .down)
    (habsent : ∀ d ∈ db.docs, d.id ≠ n) :
    serve db route req = (⟨404, [⟨404, .message "Employee not found"⟩], none⟩, db)
    ∧ (∀ (store : Db) (other : Req) (err : StoreError),
        EmployeeModel.findById store other.id = .error err →
        serve store route other = (⟨500, [⟨500, .message err.message⟩], none⟩, store))
    ∧ (∀ (store : Db) (raw : String) (body : Body),
        serve store route { id := .malformed raw, body := body }
          = (⟨500, [⟨500, .message ("Cast to ObjectId failed for value " ++ raw)⟩], none⟩,
              store))
    ∧ (∀ (store : Db) (other : Req), store.health = .down →
        ∃ err, EmployeeModel.findById store other.id = .error err
          ∧ serve store route other
              = (⟨500, [⟨500, .message err.message⟩], none⟩, store)) := by
  have hfault : ∀ (store : Db) (other : Req) (err : StoreError),
      EmployeeModel.findById store other.id = .error err →
      serve store route other = (⟨500, [⟨500, .message err.message⟩], none⟩, store) := by
    intro store other err h
    rcases hroute with rfl | rfl | rfl <;>
      simp only [serve, router] <;>
      rw [getEmployeer_error EmployeeModel store other _ _ err h] <;> rfl
  refine ⟨?_, hfault, ?_, ?_⟩
  · have h : EmployeeModel.findById db req.id = .ok none := by
      simp only [EmployeeModel, Employee.findById, hid]
      cases hh : db.health
      · simp [find?_id_none habsent]
      · simp [find?_id_none habsent]
      · exact absurd hh hup
    rcases hroute with rfl | rfl | rfl <;>
      simp only [serve, router] <;>
      rw [getEmployeer_none EmployeeModel db req _ _ h] <;> rfl
  · intro store raw body
    exact hfault store { id := .malformed raw, body := body }
      { kind := .fault, message := "Cast to ObjectId failed for value " ++ raw } rfl
  · intro store other hdown
    obtain ⟨pid, body⟩ := other
    cases pid with
    | malformed raw =>
      have h : EmployeeModel.findById store (Req.mk (.malformed raw) body).id
          = .error { kind := .fault, message := "Cast to ObjectId failed for value " ++ raw } :=
        rfl
      exact ⟨_, h, hfault store _ _ h⟩
    | oid k =>
      have h : EmployeeModel.findById store (Req.mk (.oid k) body).id
          = .error { kind := .fault, message := faultMessage .down } := by
        simp [EmployeeModel, Employee.findById, hdown]
      exact ⟨_, h, hfault store _ _ h⟩

theorem absent_id_responds_404_witness :
    (Route.delete = .get ∨ Route.delete = .update ∨ Route.delete = .delete)
    ∧ (reqManiek 3).id = .oid 3 ∧ (sampleDb .readOnly).health ≠ .down
    ∧ (∀ d ∈ (sampleDb .readOnly).docs, d.id ≠ 3)
    ∧ serve (sampleDb .readOnly) .delete (reqManiek 3)
        = (⟨404, [⟨404, .message "Employee not found"⟩], none⟩, sampleDb .readOnly)
    ∧ serve (sampleDb .up) .delete { id := .malformed "61f11a7a", body := [] }
        = (⟨500, [⟨500, .message ("Cast to ObjectId failed for value " ++ "61f11a7a")⟩], none⟩,
            sampleDb .up) :=
  ⟨by decide, rfl, by decide, by decide,
    (absent_id_responds_404 (sampleDb .readOnly) .delete (reqManiek 3) 3
      (by decide) rfl (by decide) (by decide)).1,
    (absent_id_responds_404 (sampleDb .readOnly) .delete (reqManiek 3) 3
      (by decide) rfl (by decide) (by decide)).2.2.1 (sampleDb .up) "61f11a7a" []⟩

/-- C2, as stated, fails: the lookup finds the record, persisting it is
rejected with a fault that is not a validation failure, and the response is
400, not 500. -/
theorem update_write_fault_responds_400 :
    EmployeeModel.findById (sampleDb .readOnly) (reqZenek 0).id = .ok (some maniek)
    ∧ EmployeeModel.save (sampleDb .readOnly) zenek = .error ⟨.fault, "not primary"⟩
    ∧ (router EmployeeModel (sampleDb .readOnly) .update (reqZenek 0)).1.sent
        = [⟨400, .message "not primary"⟩] :=
  ⟨rfl, rfl, by decide⟩

/-- C2, amended: for Update by id on an id that resolves to a stored record,
when persisting the modified record fails the response is 400 with the message
of the failure, whatever its kind; when persisting succeeds the response is
200 with the updated record. -/
theorem update_persist_outcomes (m : Model σ) (db : σ) (req : Req) (e : Employee)
    (h : m.findById db req.id = .ok (some e)) :
    (∀ err, m.save db { e with
            name := req.body.lookup "name", contractType := req.body.lookup "contractType" }
          = .error err →
        (router m db .update req).1.sent = [⟨400, .message err.message⟩]
        ∧ (router m db .update req).2 = db)
    ∧ (∀ e1 db1, m.save db { e with
            name := req.body.lookup "name", contractType := req.body.lookup "contractType" }
          = .ok (e1, db1) →
        (router m db .update req).1.sent = [⟨200, .employee e1⟩]
        ∧ (router m db .update req).2 = db1) := by
  constructor
  · intro err hs
    simp only [router]
    rw [getEmployeer_some m db req _ _ e h]
    simp [patchHandler, hs, Res.fresh, Res.status, Res.json]
  · intro e1 db1 hs
    simp only [router]
    rw [getEmployeer_some m db req _ _ e h]
    simp [patchHandler, hs, Res.fresh, Res.json]

theorem update_persist_outcomes_witness :
    EmployeeModel.findById (sampleDb .up) (reqZenek 0).id = .ok (some maniek)
    ∧ (router EmployeeModel (sampleDb .up) .update (reqZenek 0)).1.sent
        = [⟨200, .employee zenek⟩] :=
  ⟨rfl,
    ((update_persist_outcomes EmployeeModel (sampleDb .up) (reqZenek 0) maniek
      rfl).2 zenek { sampleDb .up with docs := [zenek] } rfl).1⟩

/-- C3: a Create whose payload has name and contractType and whose save
succeeds responds 201 with a record that has the name and contractType of the
payload, an id that no stored record has, and an employDate; other fields of
the request do not influence the result. -/
theorem create_success (db : Db) (req : Req) (n c : String) (e : Employee) (db1 : Db)
    (hc : db.Consistent)
    (hn : req.body.lookup "name" = some n)
    (hct : req.body.lookup "contractType" = some c)
    (hs : EmployeeModel.save db (EmployeeModel.construct db (req.body.lookup "name")
            (req.body.lookup "contractType")) = .ok (e, db1)) :
    serve db .create req = (⟨201, [⟨201, .employee e⟩], none⟩, db1)
    ∧ e.name = some n ∧ e.contractType = some c
    ∧ (∀ d ∈ db.docs, d.id ≠ e.id)
    ∧ e.employDate = some db.clock
    ∧ (∀ other : Req, other.body.lookup "name" = some n →
        other.body.lookup "contractType" = some c →
        serve db .create other = serve db .create req) := by
  obtain ⟨_, _, he, _⟩ := save_ok hs
  refine ⟨?_, ?_, ?_, ?_, ?_, ?_⟩
  · simp [serve, router, postHandler, hs, Res.fresh, Res.status, Res.json]
  · rw [he]; exact hn
  · rw [he]; exact hct
  · intro d hd
    have := hc d hd
    rw [he]
    exact Nat.ne_of_lt this
  · rw [he]; rfl
  · intro other h1 h2
    simp only [serve, router, postHandler, h1, h2, hn, hct]

theorem create_success_witness :
    (sampleDb .up).Consistent
    ∧ (reqManiek 0).body.lookup "name" = some "Maniek"
    ∧ (reqManiek 0).body.lookup "contractType" = some "UoD"
    ∧ serve (sampleDb .up) .create (reqManiek 0)
        = (⟨201, [⟨201, .employee ⟨1, some "Maniek", some "UoD", some 9⟩⟩], none⟩,
            { docs := [maniek, ⟨1, some "Maniek", some "UoD", some 9⟩],
              issued := 2, clock := 9, health := .up })
    ∧ (∀ d ∈ (sampleDb .up).docs, d.id ≠ 1) :=
  ⟨(by decide), rfl, rfl,
    (create_success (sampleDb .up) (reqManiek 0) "Maniek" "UoD"
      ⟨1, some "Maniek", some "UoD", some 9⟩
      { docs := [maniek, ⟨1, some "Maniek", some "UoD", some 9⟩],
        issued := 2, clock := 9, health := .up }
      (by decide) rfl rfl rfl).1,
    (create_success (sampleDb .up) (reqManiek 0) "Maniek" "UoD"
      ⟨1, some "Maniek", some "UoD", some 9⟩
      { docs := [maniek, ⟨1, some "Maniek", some "UoD", some 9⟩],
        issued := 2, clock := 9, health := .up }
      (by decide) rfl rfl rfl).2.2.2.1⟩

/-- C4: a Create whose payload lacks name or contractType responds 400 with
the validation message, and the collection, hence what List returns, is what it
was before the request. -/
theorem create_missing_field_rejected (db : Db) (req : Req)
    (h : req.body.lookup "name" = none ∨ req.body.lookup "contractType" = none) :
    ∃ msg, EmployeeModel.save db (EmployeeModel.construct db (req.body.lookup "name")
              (req.body.lookup "contractType")) = .error ⟨.validation, msg⟩
      ∧ serve db .create req = (⟨400, [⟨400, .message msg⟩], none⟩, db)
      ∧ ∀ later : Req, serve (serve db .create req).2 .list later = serve db .list later := by
  cases hN : req.body.lookup "name" <;> cases hC : req.body.lookup "contractType"
  · refine ⟨_, rfl, ?_, ?_⟩ <;>
      simp [serve, router, postHandler, EmployeeModel, Employee.save, Employee.construct,
        validate, hN, hC, Res.fresh, Res.status, Res.json]
  · refine ⟨_, rfl, ?_, ?_⟩ <;>
      simp [serve, router, postHandler, EmployeeModel, Employee.save, Employee.construct,
        validate, hN, hC, Res.fresh, Res.status, Res.json]
  · refine ⟨_, rfl, ?_, ?_⟩ <;>
      simp [serve, router, postHandler, EmployeeModel, Employee.save, Employee.construct,
        validate, hN, hC, Res.fresh, Res.status, Res.json]
  · simp [hN, hC] at h

theorem create_missing_field_rejected_witness :
    (({ id := .oid 0, body := [("name", "Maniek")] } : Req).body.lookup "name" = none
      ∨ ({ id := .oid 0, body := [("name", "Maniek")] } : Req).body.lookup "contractType" = none)
    ∧ ∃ msg, EmployeeModel.save (sampleDb .up)
          (EmployeeModel.construct (sampleDb .up)
            (({ id := .oid 0, body := [("name", "Maniek")] } : Req).body.lookup "name")
            (({ id := .oid 0, body := [("name", "Maniek")] } : Req).body.lookup "contractType"))
          = .error ⟨.validation, msg⟩
      ∧ serve (sampleDb .up) .create { id := .oid 0, body := [("name", "Maniek")] }
          = (⟨400, [⟨400, .message msg⟩], none⟩, sampleDb .up)
      ∧ ∀ later : Req,
          serve (serve (sampleDb .up) .create { id := .oid 0, body := [("name", "Maniek")] }).2
            .list later = serve (sampleDb .up) .list later :=
  ⟨Or.inr rfl,
    create_missing_field_rejected (sampleDb .up) { id := .oid 0, body := [("name", "Maniek")] }
      (Or.inr rfl)⟩

/-- C7: a Get by id on the id of the record that a successful Create returned
responds 200 with that same record. -/
theorem create_then_get_roundtrip (db : Db) (req later : Req) (e : Employee)
    (hs : (serve db .create req).1.sent = [⟨201, .employee e⟩])
    (hid : later.id = .oid e.id) :
    (serve (serve db .create req).2 .get later).1.sent = [⟨200, .employee e⟩] := by
  simp only [serve, router, postHandler] at hs ⊢
  cases hsave : EmployeeModel.save db (EmployeeModel.construct db (req.body.lookup "name")
      (req.body.lookup "contractType")) with
  | error err => simp [hsave, Res.fresh, Res.status, Res.json] at hs
  | ok saved =>
    obtain ⟨e1, db1⟩ := saved
    simp [hsave, Res.fresh, Res.status, Res.json] at hs
    subst hs
    obtain ⟨_, hup, he, hdb⟩ := save_ok hsave
    have hfind : EmployeeModel.findById db1 later.id = .ok (some e1) := by
      have hp := persist_find? db.docs e1
      rw [he] at hp
      simp only [EmployeeModel, Employee.findById, hid, hdb, hup]
      rw [he]
      exact congrArg Except.ok hp
    simp only [hsave]
    rw [getEmployeer_some EmployeeModel db1 later _ _ e1 hfind]
    simp [getHandler, Res.fresh, Res.send]

theorem create_then_get_roundtrip_witness :
    (serve (Db.empty 7 .up) .create (reqManiek 5)).1.sent = [⟨201, .employee maniek⟩]
    ∧ (reqZenek 0).id = .oid maniek.id
    ∧ (serve (serve (Db.empty 7 .up) .create (reqManiek 5)).2 .get (reqZenek 0)).1.sent
        = [⟨200, .employee maniek⟩] :=
  ⟨by decide, rfl,
    create_then_get_roundtrip (Db.empty 7 .up) (reqManiek 5) (reqZenek 0) maniek
      (by decide) rfl⟩

/-- C6: a Delete by id of a stored record that succeeds responds 200 with the
message "Employee deleted succesfully", and a Get by id on the same id
afterwards responds 404. -/
theorem delete_then_get_responds_404 (db db1 : Db) (req : Req) (e : Employee)
    (hf : EmployeeModel.findById db req.id = .ok (some e))
    (hr : EmployeeModel.remove db e = .ok db1) :
    serve db .delete req
        = (⟨200, [⟨200, .message "Employee deleted succesfully"⟩], some e⟩, db1)
    ∧ (serve db1 .get req).1.sent = [⟨404, .message "Employee not found"⟩] := by
  obtain ⟨hid, _, _⟩ := findById_some hf
  obtain ⟨hup, hdb⟩ := remove_ok hr
  constructor
  · simp only [serve, router]
    rw [getEmployeer_some EmployeeModel db req _ _ e hf]
    simp [deleteHandler, hr, Res.fresh, Res.json]
  · have hnone : EmployeeModel.findById db1 req.id = .ok none := by
      simp only [EmployeeModel, Employee.findById, hid, hdb, hup]
      rw [filter_ne_find?]
    simp only [serve, router]
    rw [getEmployeer_none EmployeeModel db1 req _ _ hnone]
    rfl

theorem delete_then_get_responds_404_witness :
    EmployeeModel.findById (sampleDb .up) (reqManiek 0).id = .ok (some maniek)
    ∧ EmployeeModel.remove (sampleDb .up) maniek = .ok { sampleDb .up with docs := [] }
    ∧ serve (sampleDb .up) .delete (reqManiek 0)
        = (⟨200, [⟨200, .message "Employee deleted succesfully"⟩], some maniek⟩,
            { sampleDb .up with docs := [] })
    ∧ (serve { sampleDb .up with docs := [] } .get (reqManiek 0)).1.sent
        = [⟨404, .message "Employee not found"⟩] :=
  ⟨rfl, rfl,
    delete_then_get_responds_404 (sampleDb .up) { sampleDb .up with docs := [] }
      (reqManiek 0) maniek rfl rfl⟩

/-- C5: after a successful Update by id the returned record, which is also the
record stored under the path id, has the name and contractType of the payload
and the id and employDate it had before; other fields of the payload change
nothing. -/
theorem update_success_frame (db : Db) (req : Req) (e e1 : Employee)
    (hf : EmployeeModel.findById db req.id = .ok (some e))
    (hs : (serve db .update req).1.sent = [⟨200, .employee e1⟩]) :
    e1.name = req.body.lookup "name"
    ∧ e1.contractType = req.body.lookup "contractType"
    ∧ e1.id = e.id ∧ e1.employDate = e.employDate
    ∧ EmployeeModel.findById (serve db .update req).2 req.id = .ok (some e1)
    ∧ (∀ other : Req, other.id = req.id →
        other.body.lookup "name" = req.body.lookup "name" →
        other.body.lookup "contractType" = req.body.lookup "contractType" →
        serve db .update other = serve db .update req) := by
  have hframe : ∀ other : Req, other.id = req.id →
      other.body.lookup "name" = req.body.lookup "name" →
      other.body.lookup "contractType" = req.body.lookup "contractType" →
      serve db .update other = serve db .update req := by
    intro other h0 h1 h2
    have hf2 : EmployeeModel.findById db other.id = .ok (some e) := by rw [h0]; exact hf
    simp only [serve, router]
    rw [getEmployeer_some EmployeeModel db req _ _ e hf,
      getEmployeer_some EmployeeModel db other _ _ e hf2]
    simp only [patchHandler, h1, h2]
  obtain ⟨hid, _, _⟩ := findById_some hf
  have hrun : serve db .update req
      = patchHandler EmployeeModel db req ⟨200, [], some e⟩ := by
    simp only [serve, router]
    rw [getEmployeer_some EmployeeModel db req _ _ e hf]
    rfl
  rw [hrun] at hs ⊢
  cases hsave : EmployeeModel.save db { e with
      name := req.body.lookup "name", contractType := req.body.lookup "contractType" } with
  | error err => simp [patchHandler, hsave, Res.status, Res.json] at hs
  | ok saved =>
    obtain ⟨e2, db2⟩ := saved
    simp [patchHandler, hsave, Res.json] at hs
    subst hs
    obtain ⟨_, hup, he, hdb⟩ := save_ok hsave
    have hp := persist_find? db.docs e2
    rw [he] at hp
    refine ⟨by rw [he], by rw [he], by rw [he], by rw [he], ?_, ?_⟩
    · have hstate : (patchHandler EmployeeModel db req ⟨200, [], some e⟩).2 = db2 := by
        simp [patchHandler, hsave]
      rw [hstate]
      simp only [EmployeeModel, Employee.findById, hid, hdb, hup]
      rw [he]
      exact congrArg Except.ok hp
    · intro other h0 h1 h2
      rw [← hrun]
      exact hframe other h0 h1 h2

theorem update_success_frame_witness :
    EmployeeModel.findById (sampleDb .up) (reqZenek 0).id = .ok (some maniek)
    ∧ (serve (sampleDb .up) .update (reqZenek 0)).1.sent = [⟨200, .employee zenek⟩]
    ∧ zenek.id = maniek.id ∧ zenek.employDate = maniek.employDate
    ∧ EmployeeModel.findById (serve (sampleDb .up) .update (reqZenek 0)).2 (reqZenek 0).id
        = .ok (some zenek) :=
  ⟨rfl, by decide,
    (update_success_frame (sampleDb .up) (reqZenek 0) maniek zenek rfl (by decide)).2.2.1,
    (update_success_frame (sampleDb .up) (reqZenek 0) maniek zenek rfl (by decide)).2.2.2.1,
    (update_success_frame (sampleDb .up) (reqZenek 0) maniek zenek rfl (by decide)).2.2.2.2.1⟩

section Frame

theorem router_failure_keeps_state (m : Model σ) (db : σ) (route : Route) (req : Req) :
    ∀ r ∈ (router m db route req).1.sent, r.status ≠ 200 → r.status ≠ 201 →
      (router m db route req).2 = db := by
  cases route with
  | list =>
    simp only [router, listHandler]
    cases m.find db <;> simp [Res.fresh, Res.status, Res.json]
  | create =>
    simp only [router, postHandler]
    cases m.save db _ <;> simp [Res.fresh, Res.status, Res.json]
  | get =>
    simp only [router]
    cases h : m.findById db req.id with
    | error err => rw [getEmployeer_error m db req _ _ err h]; simp
    | ok found =>
      cases found with
      | none => rw [getEmployeer_none m db req _ _ h]; simp
      | some e =>
        rw [getEmployeer_some m db req _ _ e h]
        simp [Res.fresh, getHandler, Res.send]
  | update =>
    simp only [router]
    cases h : m.findById db req.id with
    | error err => rw [getEmployeer_error m db req _ _ err h]; simp
    | ok found =>
      cases found with
      | none => rw [getEmployeer_none m db req _ _ h]; simp
      | some e =>
        rw [getEmployeer_some m db req _ _ e h]
        simp only [patchHandler, Res.fresh]
        cases m.save db _ <;> simp [Res.status, Res.json]
  | delete =>
    simp only [router]
    cases h : m.findById db req.id with
    | error err => rw [getEmployeer_error m db req _ _ err h]; simp
    | ok found =>
      cases found with
      | none => rw [getEmployeer_none m db req _ _ h]; simp
      | some e =>
        rw [getEmployeer_some m db req _ _ e h]
        simp only [deleteHandler, Res.fresh]
        cases m.remove db e <;> simp [Res.status, Res.json]

theorem router_read_keeps_state (m : Model σ) (db : σ) (req : Req) :
    (router m db .list req).2 = db ∧ (router m db .get req).2 = db := by
  constructor
  · simp only [router, listHandler]
    cases m.find db <;> rfl
  · simp only [router]
    cases h : m.findById db req.id with
    | error err => rw [getEmployeer_error m db req _ _ err h]
    | ok found =>
      cases found with
      | none => rw [getEmployeer_none m db req _ _ h]
      | some e =>
        rw [getEmployeer_some m db req _ _ e h]
        rfl

theorem serve_create_state (db : Db) (req : Req) :
    (serve db .create req).2 = db
    ∨ (serve db .create req).2
        = { db with
            docs := persist db.docs (Employee.construct db (req.body.lookup "name")
              (req.body.lookup "contractType")),
            issued := max db.issued (db.issued + 1) } := by
  simp only [serve, router, postHandler]
  cases hsave : EmployeeModel.save db (EmployeeModel.construct db (req.body.lookup "name")
      (req.body.lookup "contractType")) with
  | error err => exact Or.inl rfl
  | ok saved =>
    obtain ⟨e1, db1⟩ := saved
    obtain ⟨_, _, _, hdb⟩ := save_ok hsave
    exact Or.inr hdb

theorem serve_update_state (db : Db) (req : Req) :
    (serve db .update req).2 = db
    ∨ ∃ e, Employee.findById db req.id = .ok (some e)
        ∧ (serve db .update req).2
          = { db with
              docs := persist db.docs { e with
                name := req.body.lookup "name", contractType := req.body.lookup "contractType" },
              issued := max db.issued (e.id + 1) } := by
  simp only [serve, router]
  cases h : EmployeeModel.findById db req.id with
  | error err => rw [getEmployeer_error EmployeeModel db req _ _ err h]; exact Or.inl rfl
  | ok found =>
    cases found with
    | none => rw [getEmployeer_none EmployeeModel db req _ _ h]; exact Or.inl rfl
    | some e =>
      rw [getEmployeer_some EmployeeModel db req _ _ e h]
      simp only [patchHandler]
      cases hsave : EmployeeModel.save db { e with
          name := req.body.lookup "name", contractType := req.body.lookup "contractType" } with
      | error err => exact Or.inl rfl
      | ok saved =>
        obtain ⟨e1, db1⟩ := saved
        obtain ⟨_, _, _, hdb⟩ := save_ok hsave
        exact Or.inr ⟨e, h, hdb⟩

theorem serve_delete_state (db : Db) (req : Req) :
    (serve db .delete req).2 = db
    ∨ ∃ e, Employee.findById db req.id = .ok (some e)
        ∧ (serve db .delete req).2
          = { db with docs := db.docs.filter (fun d => d.id != e.id) } := by
  simp only [serve, router]
  cases h : EmployeeModel.findById db req.id with
  | error err => rw [getEmployeer_error EmployeeModel db req _ _ err h]; exact Or.inl rfl
  | ok found =>
    cases found with
    | none => rw [getEmployeer_none EmployeeModel db req _ _ h]; exact Or.inl rfl
    | some e =>
      rw [getEmployeer_some EmployeeModel db req _ _ e h]
      simp only [deleteHandler]
      cases hrem : EmployeeModel.remove db e with
      | error err => exact Or.inl rfl
      | ok db1 =>
        obtain ⟨_, hdb⟩ := remove_ok hrem
        exact Or.inr ⟨e, h, hdb⟩

theorem empty_consistent (clock : Nat) (health : Health) : (Db.empty clock health).Consistent := by
  intro d hd
  cases hd

theorem serve_consistent (db : Db) (route : Route) (req : Req) (hc : db.Consistent) :
    (serve db route req).2.Consistent := by
  cases route with
  | list => rw [show (serve db .list req).2 = db from (router_read_keeps_state _ db req).1]; exact hc
  | get => rw [show (serve db .get req).2 = db from (router_read_keeps_state _ db req).2]; exact hc
  | create =>
    rcases serve_create_state db req with h | h
    · rw [h]; exact hc
    · rw [h]
      have hk : max db.issued (db.issued + 1) = db.issued + 1 := by omega
      intro d hd
      simp only [hk]
      exact persist_ids_lt (fun d hd => Nat.lt_succ_of_lt (hc d hd)) (Nat.lt_succ_self _) d hd
  | update =>
    rcases serve_update_state db req with h | ⟨e, hf, h⟩
    · rw [h]; exact hc
    · rw [h]
      obtain ⟨_, hmem, _⟩ := findById_some hf
      have hlt := hc e hmem
      have hk : max db.issued (e.id + 1) = db.issued := by omega
      intro d hd
      simp only [hk]
      have hlt2 : (Employee.mk e.id (req.body.lookup "name")
          (req.body.lookup "contractType") e.employDate).id < db.issued := hlt
      exact persist_ids_lt hc hlt2 d hd
  | delete =>
    rcases serve_delete_state db req with h | ⟨e, _, h⟩
    · rw [h]; exact hc
    · rw [h]
      intro d hd
      exact hc d (List.mem_filter.mp hd).1

end Frame

/-- C9: every operation touches at most one record. List and Get by id leave
the collection as it was; Create keeps every stored record and adds at most
one; Update and Delete by id leave the records whose id differs from the path
id as they were; a request answered with 404, 400 or 500 leaves the collection
as it was. -/
theorem operations_touch_at_most_one_record (db : Db) (req : Req) (hc : db.Consistent) :
    (serve db .list req).2 = db
    ∧ (serve db .get req).2 = db
    ∧ (∃ added : List Employee,
        (serve db .create req).2.docs = db.docs ++ added ∧ added.length ≤ 1)
    ∧ (∀ n, req.id = .oid n →
        (serve db .update req).2.docs.filter (fun d => d.id != n)
            = db.docs.filter (fun d => d.id != n)
        ∧ (serve db .delete req).2.docs.filter (fun d => d.id != n)
            = db.docs.filter (fun d => d.id != n))
    ∧ (∀ route, ∀ r ∈ (serve db route req).1.sent,
        r.status = 404 ∨ r.status = 400 ∨ r.status = 500 → (serve db route req).2 = db) := by
  refine ⟨(router_read_keeps_state _ db req).1, (router_read_keeps_state _ db req).2,
    ?_, ?_, ?_⟩
  · rcases serve_create_state db req with h | h
    · exact ⟨[], by rw [h]; simp, by simp⟩
    · refine ⟨[Employee.construct db (req.body.lookup "name")
        (req.body.lookup "contractType")], ?_, by simp⟩
      rw [h]
      exact persist_fresh (fun d hd => Nat.ne_of_lt (hc d hd))
  · intro n hn
    constructor
    · rcases serve_update_state db req with h | ⟨e, hf, h⟩
      · rw [h]
      · obtain ⟨hid, _, _⟩ := findById_some hf
        rw [hn] at hid
        injection hid with hid
        rw [h, hid]
        exact persist_filter_ne db.docs
          (Employee.mk e.id (req.body.lookup "name") (req.body.lookup "contractType")
            e.employDate)
    · rcases serve_delete_state db req with h | ⟨e, hf, h⟩
      · rw [h]
      · obtain ⟨hid, _, _⟩ := findById_some hf
        rw [hn] at hid
        injection hid with hid
        rw [h, hid]
        simp [List.filter_filter]
  · intro route r hr hstatus
    refine router_failure_keeps_state EmployeeModel db route req r hr ?_ ?_
    · rcases hstatus with h | h | h <;> rw [h] <;> decide
    · rcases hstatus with h | h | h <;> rw [h] <;> decide

theorem operations_touch_at_most_one_record_witness :
    (sampleDb .up).Consistent
    ∧ (serve (sampleDb .up) .list (reqZenek 0)).2 = sampleDb .up
    ∧ (serve (sampleDb .up) .get (reqZenek 0)).2 = sampleDb .up
    ∧ (serve (sampleDb .up) .update (reqZenek 4)).2 = sampleDb .up
    ∧ (serve (sampleDb .up) .update (reqZenek 0)).2.docs.filter (fun d => d.id != 0)
        = (sampleDb .up).docs.filter (fun d => d.id != 0) :=
  ⟨(by decide),
    (operations_touch_at_most_one_record (sampleDb .up) (reqZenek 0) (by decide)).1,
    (operations_touch_at_most_one_record (sampleDb .up) (reqZenek 0) (by decide)).2.1,
    (operations_touch_at_most_one_record (sampleDb .up) (reqZenek 4) (by decide)).2.2.2.2
      .update ⟨404, .message "Employee not found"⟩ (by decide) (Or.inl rfl),
    ((operations_touch_at_most_one_record (sampleDb .up) (reqZenek 0) (by decide)).2.2.2.1
      0 rfl).1⟩

end RestAPI
